import Mathlib

/-!
Shallow embedding of the freefeed DbAdapter layer: the Redis-backed
denormalized social-graph indexing layer (key composer, record store,
identity indexes, sorted-set registries and the timeline composer).
The store is modelled as a single key namespace mapping keys to typed
Redis values; every adapter operation is a state-passing function that
either returns a value or a JavaScript-style error, mirroring the
source's async methods and thrown exceptions.  Scores are modelled as
integers (every score in the source is a wall-clock time or a counter).
-/

/-- Errors thrown by the source code: the "Already exists" conflict in the
guarded creates, the "keys should be strings" validation in mkKey, the
type-mismatch errors of getUserById/getGroupById and friends, the JS
TypeError raised by reading a property of null in getFeedOwnersByIds, and
the Redis WRONGTYPE reply for an operation on a key of the wrong kind. -/
inductive JsError where
  | alreadyExists
  | keysShouldBeStrings
  | expectedUserGotGroup
  | expectedGroupGotUser
  | typeErrorNullRead
  | wrongTypeOperation
deriving DecidableEq, Repr

/-- JavaScript values that can appear as a key segment or a payload field:
a string, a number, or undefined (a missing property read). -/
inductive JSVal where
  | str (s : String)
  | num (n : Int)
  | undefined
deriving DecidableEq, Repr

def JSVal.isString : JSVal → Bool
  | .str _ => true
  | _ => false

/-- Hash records are ordered field lists, as Redis hashes with the
field-insertion order observable through HGETALL. -/
abbrev Hash := List (String × String)

/-- Sorted sets are member/score entry lists. -/
abbrev ZSet := List (String × Int)

/-- A Redis value: string key, hash record, or sorted set (the value
kinds used by the operations under verification). -/
inductive RVal where
  | str (v : String)
  | hash (h : Hash)
  | zset (z : ZSet)
deriving DecidableEq, Repr

/-- The whole store: one shared key namespace, as in Redis. -/
def Store := String → Option RVal

def Store.set (s : Store) (k : String) (v : RVal) : Store :=
  fun q => if q = k then some v else s q

def Store.del (s : Store) (k : String) : Store :=
  fun q => if q = k then none else s q

def emptyStore : Store := fun _ => none

/-- Join of already-validated key segments with the fixed separator,
exactly the Array.prototype.join of the source's mkKey. -/
def mkKeyS : List String → String
  | [] => ""
  | [s] => s
  | s :: rest => s ++ ":" ++ mkKeyS rest

/-- Validation pass of mkKey: scan the segments left to right and throw
at the first non-string one, collecting the string contents. -/
def mkKeyAux : List JSVal → Except JsError (List String)
  | [] => .ok []
  | .str s :: rest => (mkKeyAux rest).map (fun l => s :: l)
  | _ :: _ => .error .keysShouldBeStrings

/-- mkKey from the source: validate every segment is a string, then join
with the separator.  Pure: it touches no store, so the validation error
is raised synchronously before any store access. -/
def mkKey (keys : List JSVal) : Except JsError String :=
  (mkKeyAux keys).map mkKeyS

theorem mkKeyAux_strs (l : List String) : mkKeyAux (l.map JSVal.str) = .ok l := by
  induction l with
  | nil => rfl
  | cons a l ih => simp [mkKeyAux, ih, Except.map]

theorem mkKey_strs (l : List String) : mkKey (l.map JSVal.str) = .ok (mkKeyS l) := by
  simp [mkKey, mkKeyAux_strs, Except.map]

/-- The computation monad of the adapter: state passing over the shared
store with JavaScript exceptions.  A raised error aborts the rest of the
chain; the state reached so far is kept. -/
def DbM (α : Type) : Type := Store → Except JsError α × Store

def dbPure {α : Type} (a : α) : DbM α := fun s => (.ok a, s)

def dbBind {α β : Type} (m : DbM α) (f : α → DbM β) : DbM β := fun s =>
  match m s with
  | (.ok a, s1) => f a s1
  | (.error e, s1) => (.error e, s1)

def throwM {α : Type} (e : JsError) : DbM α := fun s => (.error e, s)

/-- Hash field read, i.e. attrs.field in JS: undefined when absent. -/
def hget (h : Hash) (f : String) : Option String :=
  (h.find? (fun p => p.1 = f)).map (fun p => p.2)

/-- Set one field of a hash: overwrite in place if present, append otherwise
(HSET field semantics). -/
def hset (h : Hash) (f v : String) : Hash :=
  if h.any (fun p => p.1 = f) then
    h.map (fun p => if p.1 = f then (f, v) else p)
  else h ++ [(f, v)]

/-- HMSET: partial-field merge of a payload into a hash. -/
def hmerge (h : Hash) (fields : Hash) : Hash :=
  fields.foldl (fun acc p => hset acc p.1 p.2) h

/-- Score lookup in a sorted set (ZSCORE). -/
def lookupZ (z : ZSet) (m : String) : Option Int :=
  ((z : List (String × Int)).find? (fun p => p.1 = m)).map (fun p => p.2)

/-- ZADD upsert: update the score of a present member, append otherwise. -/
def zupsert (z : ZSet) (m : String) (score : Int) : ZSet :=
  if (z : List (String × Int)).any (fun p => p.1 = m) then
    (z : List (String × Int)).map (fun p => if p.1 = m then (m, score) else p)
  else (z : List (String × Int)) ++ [(m, score)]

/-- Redis rank order on sorted-set entries: ascending score, ties broken
by lexicographic member order. -/
def rankLe (p q : String × Int) : Prop :=
  p.2 < q.2 ∨ (p.2 = q.2 ∧ p.1 ≤ q.1)

instance : DecidableRel rankLe := fun p q =>
  show Decidable (p.2 < q.2 ∨ (p.2 = q.2 ∧ p.1 ≤ q.1)) from inferInstance

instance : IsTotal (String × Int) rankLe where
  total p q := by
    rcases lt_trichotomy p.2 q.2 with h | h | h
    · exact Or.inl (Or.inl h)
    · rcases le_total p.1 q.1 with h2 | h2
      · exact Or.inl (Or.inr ⟨h, h2⟩)
      · exact Or.inr (Or.inr ⟨h.symm, h2⟩)
    · exact Or.inr (Or.inl h)

instance : IsTrans (String × Int) rankLe where
  trans a b c hab hbc := by
    rcases hab with h1 | ⟨e1, l1⟩
    · rcases hbc with h2 | ⟨e2, _⟩
      · exact Or.inl (h1.trans h2)
      · exact Or.inl (e2 ▸ h1)
    · rcases hbc with h2 | ⟨e2, l2⟩
      · exact Or.inl (e1 ▸ h2)
      · exact Or.inr ⟨e1.trans e2, l1.trans l2⟩

/-- Entries of a sorted set in rank order. -/
def sortZ (z : ZSet) : List (String × Int) :=
  List.insertionSort rankLe (z : List (String × Int))

/-- ZRANGE key i j semantics: sort by rank, normalize negative indices
from the tail, clamp, and slice. -/
def zrangeSpec (z : ZSet) (i j : Int) : List String :=
  let sorted := (sortZ z).map Prod.fst
  let n : Int := sorted.length
  let f : Int := if i < 0 then max (n + i) 0 else i
  let t : Int := min (if j < 0 then n + j else j) (n - 1)
  if f > t then [] else (sorted.drop f.toNat).take (t - f + 1).toNat

/-- ZINTERSTORE body with AGGREGATE MAX: members common to both inputs,
score the max of the two, in the first input's order. -/
def zinterMax (a b : ZSet) : ZSet :=
  (a : List (String × Int)).filterMap (fun p =>
    match lookupZ b p.1 with
    | some t => some (p.1, max p.2 t)
    | none => none)

/-- ZUNIONSTORE body with AGGREGATE MAX: members of either input, score
the max where both are present. -/
def zunionMax (a b : ZSet) : ZSet :=
  (a : List (String × Int)).map (fun p =>
    match lookupZ b p.1 with
    | some t => (p.1, max p.2 t)
    | none => p) ++
  (b : List (String × Int)).filter (fun p => (lookupZ a p.1).isNone)

/-- The toLowerCase of JavaScript strings, character by character. -/
def jsToLowerCase (s : String) : String := ⟨s.data.map Char.toLower⟩

/-!  Redis command primitives (the database collaborator's contract).
Each command is atomic on its key; a command against a key holding a
value of the wrong kind replies WRONGTYPE. -/

/-- EXISTS: 1 when the key holds any value, 0 otherwise. -/
def existsAsync (k : String) : DbM Nat := fun s =>
  (.ok (if (s k).isSome then 1 else 0), s)

/-- HGETALL: null for a missing key, the fields for a hash. -/
def hgetallAsync (k : String) : DbM (Option Hash) := fun s =>
  match s k with
  | none => (.ok none, s)
  | some (.hash h) => (.ok (some h), s)
  | some _ => (.error .wrongTypeOperation, s)

/-- HMSET: merge the payload fields into the hash at the key, creating
the hash when the key is absent. -/
def hmsetAsync (k : String) (payload : Hash) : DbM Unit := fun s =>
  match s k with
  | none => (.ok (), Store.set s k (.hash (hmerge [] payload)))
  | some (.hash h) => (.ok (), Store.set s k (.hash (hmerge h payload)))
  | some _ => (.error .wrongTypeOperation, s)

/-- DEL: remove the key whatever it holds. -/
def delAsync (k : String) : DbM Nat := fun s =>
  (.ok (if (s k).isSome then 1 else 0), Store.del s k)

/-- GET: a scalar string read; null for a missing key. -/
def getAsync (k : String) : DbM (Option String) := fun s =>
  match s k with
  | none => (.ok none, s)
  | some (.str v) => (.ok (some v), s)
  | some _ => (.error .wrongTypeOperation, s)

/-- SET: a scalar string write, overwriting any previous value. -/
def setAsync (k v : String) : DbM Unit := fun s =>
  (.ok (), Store.set s k (.str v))

/-- ZSCORE. -/
def zscoreAsync (k m : String) : DbM (Option Int) := fun s =>
  match s k with
  | none => (.ok none, s)
  | some (.zset z) => (.ok (lookupZ z m), s)
  | some _ => (.error .wrongTypeOperation, s)

/-- ZADD of a single member. -/
def zaddAsync (k : String) (score : Int) (m : String) : DbM Nat := fun s =>
  match s k with
  | none => (.ok 1, Store.set s k (.zset [(m, score)]))
  | some (.zset z) =>
    (.ok (if (lookupZ z m).isSome then 0 else 1), Store.set s k (.zset (zupsert z m score)))
  | some _ => (.error .wrongTypeOperation, s)

/-- ZRANGE with ascending rank order. -/
def zrangeAsync (k : String) (i j : Int) : DbM (List String) := fun s =>
  match s k with
  | none => (.ok [], s)
  | some (.zset z) => (.ok (zrangeSpec z i j), s)
  | some _ => (.error .wrongTypeOperation, s)

/-- Read a key as a sorted set for the set-algebra commands: a missing
key counts as the empty set. -/
def zsetAtE (s : Store) (k : String) : Except JsError ZSet :=
  match s k with
  | none => .ok []
  | some (.zset z) => .ok z
  | some _ => .error .wrongTypeOperation

/-- ZINTERSTORE dest 2 k1 k2 AGGREGATE MAX: compute the intersection of
the two source sets, then store it at dest — deleting dest when the
result is empty, as Redis does.  Returns the result cardinality. -/
def zinterstoreMax (dest k1 k2 : String) : DbM Nat := fun s =>
  match zsetAtE s k1, zsetAtE s k2 with
  | .ok a, .ok b =>
    let r := zinterMax a b
    (.ok r.length, if r.isEmpty then Store.del s dest else Store.set s dest (.zset r))
  | .error e, _ => (.error e, s)
  | _, .error e => (.error e, s)

/-- ZUNIONSTORE dest 2 k1 k2 AGGREGATE MAX, analogous. -/
def zunionstoreMax (dest k1 k2 : String) : DbM Nat := fun s =>
  match zsetAtE s k1, zsetAtE s k2 with
  | .ok a, .ok b =>
    let r := zunionMax a b
    (.ok r.length, if r.isEmpty then Store.del s dest else Store.set s dest (.zset r))
  | .error e, _ => (.error e, s)
  | _, .error e => (.error e, s)

/-!  The domain objects built by DbAdapter.initObject for accounts: the
polymorphic FeedOwner, discriminated by the stored type attribute. -/

structure AccountObj where
  id : String
  attrs : Hash
deriving DecidableEq, Repr

inductive FeedOwner where
  | user (a : AccountObj)
  | group (a : AccountObj)
deriving DecidableEq, Repr

def FeedOwner.ownerId : FeedOwner → String
  | .user a => a.id
  | .group a => a.id

/-- The branch of getFeedOwnerById and getFeedOwnersByIds that picks the
variant: attrs.type === 'group' selects Group, anything else User. -/
def mkFeedOwner (attrs : Hash) (id : String) : FeedOwner :=
  if hget attrs "type" = some "group" then .group ⟨id, attrs⟩ else .user ⟨id, attrs⟩

/-- Property read returning a JS value (undefined when the field is
absent), for payload.username and friends. -/
def jsProp (h : Hash) (f : String) : JSVal :=
  match hget h f with
  | some v => .str v
  | none => .undefined

/-- JS coercion of a value used as a computed property key:
payload[name] with name undefined writes the field "undefined". -/
def jsPropKeyName : JSVal → String
  | .str s => s
  | .num n => toString n
  | .undefined => "undefined"

/-- The `score && score >= 0` check of the source, read through JS
truthiness: a null score and a zero score are both falsy, so the check
reports present exactly for a stored strictly positive score. -/
def jsTruthyAndGeZero (score : Option Int) : Bool :=
  match score with
  | none => false
  | some s => if s = 0 then false else decide (0 ≤ s)

/-!  DbAdapter methods (base methods first), translated one-to-one from
the source.  Promise chains are sequentialized in program order; the
Promise.all write batches of the guarded creates touch pairwise distinct
keys, so the serialization order is observationally irrelevant. -/

def _existsRecord (k : String) : DbM Nat := existsAsync k

def _getRecord (k : String) : DbM (Option Hash) := hgetallAsync k

def _createRecord (k : String) (payload : Hash) : DbM Unit := hmsetAsync k payload

def _updateRecord (k : String) (payload : Hash) : DbM Unit := hmsetAsync k payload

def _deleteRecord (k : String) : DbM Nat := delAsync k

def _getIndexValue (k : String) : DbM (Option String) := getAsync k

def _setIndexValue (k v : String) : DbM Unit := setAsync k v

def _getSortedSetElementScore (k m : String) : DbM (Option Int) := zscoreAsync k m

def _addElementToSortedSet (k : String) (score : Int) (m : String) : DbM Nat :=
  zaddAsync k score m

def _normalizeUserEmail (email : String) : String := jsToLowerCase email

def findRecordById (modelName modelId : String) : DbM (Option Hash) :=
  _getRecord (mkKeyS [modelName, modelId])

/-- Pipelined batch of HGETALL commands, one per id, results in request
order (database.batch(requests).execAsync()). -/
def findRecordsByIds (modelName : String) : List String → DbM (List (Option Hash))
  | [] => dbPure []
  | id :: rest =>
    dbBind (hgetallAsync (mkKeyS [modelName, id])) (fun h =>
    dbBind (findRecordsByIds modelName rest) (fun hs =>
    dbPure (h :: hs)))

def findUserByAttributeIndex (attrName value : String) : DbM (Option String) :=
  _getIndexValue (mkKeyS [attrName, value, "uid"])

def _createUserUsernameIndex (userId : String) (username : JSVal) : DbM Unit :=
  match mkKey [.str "username", username, .str "uid"] with
  | .error e => throwM e
  | .ok k => _setIndexValue k userId

def createUserEmailIndex (userId email : String) : DbM Unit :=
  _setIndexValue (mkKeyS ["email", _normalizeUserEmail email, "uid"]) userId

def getUserIdByUsername (username : String) : DbM (Option String) :=
  _getIndexValue (mkKeyS ["username", username, "uid"])

/-- createUser: the freshly generated uuid is passed in as userId; the
local aliases username, email and userKey of the source are inlined. -/
def createUser (userId : String) (payload : Hash) : DbM String :=
  dbBind (_existsRecord (mkKeyS ["user", userId])) (fun ex =>
  if ex ≠ 0 then throwM .alreadyExists
  else
    dbBind (_createUserUsernameIndex userId (jsProp payload "username")) (fun _ =>
    dbBind (_createRecord (mkKeyS ["user", userId]) payload) (fun _ =>
    dbBind (match hget payload "email" with
            | some e => if 0 < e.length then createUserEmailIndex userId e else dbPure ()
            | none => dbPure ()) (fun _ =>
    dbPure userId))))

def getFeedOwnerById (id : String) : DbM (Option FeedOwner) :=
  dbBind (_getRecord (mkKeyS ["user", id])) (fun attrs =>
  match attrs with
  | none => dbPure none
  | some h => dbPure (some (mkFeedOwner h id)))

def getUserById (id : String) : DbM (Option FeedOwner) :=
  dbBind (getFeedOwnerById id) (fun u =>
  match u with
  | none => dbPure none
  | some (.group _) => throwM .expectedUserGotGroup
  | some (.user a) => dbPure (some (.user a)))

def getGroupById (id : String) : DbM (Option FeedOwner) :=
  dbBind (getFeedOwnerById id) (fun u =>
  match u with
  | none => dbPure none
  | some (.user _) => throwM .expectedGroupGotUser
  | some (.group a) => dbPure (some (.group a)))

/-- The responses.map body of getFeedOwnersByIds: reading attrs.type of
a null batch entry throws a TypeError. -/
def initFeedOwners : List (Option Hash × String) → Except JsError (List FeedOwner)
  | [] => .ok []
  | (none, _) :: _ => .error .typeErrorNullRead
  | (some h, id) :: rest => (initFeedOwners rest).map (fun l => mkFeedOwner h id :: l)

def liftE {α : Type} (e : Except JsError α) : DbM α := fun s => (e, s)

def getFeedOwnersByIds (ids : List String) : DbM (List FeedOwner) :=
  dbBind (findRecordsByIds "user" ids) (fun responses =>
  liftE (initFeedOwners (responses.zip ids)))

/-- The each-loop of getUsersByIds: throw at the first non-User. -/
def ensureAllUsers : List FeedOwner → Except JsError Unit
  | [] => .ok ()
  | .user _ :: rest => ensureAllUsers rest
  | .group _ :: _ => .error .expectedUserGotGroup

def getUsersByIds (userIds : List String) : DbM (List FeedOwner) :=
  dbBind (getFeedOwnersByIds userIds) (fun users =>
  dbBind (liftE (ensureAllUsers users)) (fun _ =>
  dbPure users))

def getFeedOwnerByUsername (username : String) : DbM (Option FeedOwner) :=
  dbBind (getUserIdByUsername (jsToLowerCase username)) (fun identifier =>
  match identifier with
  | none => dbPure none
  | some id => getFeedOwnerById id)

def getUserTimelinesIds (userId : String) : DbM (Option Hash) :=
  _getRecord (mkKeyS ["user", userId, "timelines"])

def getUserDiscussionsTimelineId (userId : String) : String := userId

def _createUserTimeline (userId timelineName : JSVal) (timelineId : String) : DbM Unit :=
  match mkKey [.str "user", userId, .str "timelines"] with
  | .error e => throwM e
  | .ok k => _createRecord k [(jsPropKeyName timelineName, timelineId)]

/-- createPost: the freshly generated uuid is passed in as postId. -/
def createPost (postId : String) (payload : Hash) : DbM String :=
  dbBind (_existsRecord (mkKeyS ["post", postId])) (fun ex =>
  if ex ≠ 0 then throwM .alreadyExists
  else dbBind (_createRecord (mkKeyS ["post", postId]) payload) (fun _ => dbPure postId))

def hasUserLikedPost (userId postId : String) : DbM Bool :=
  dbBind (_getSortedSetElementScore (mkKeyS ["post", postId, "likes"]) userId) (fun score =>
  dbPure (jsTruthyAndGeZero score))

def isSubscriptionRequestPresent (currentUserId followedUserId : String) : DbM Bool :=
  dbBind (_getSortedSetElementScore (mkKeyS ["user", followedUserId, "requests"]) currentUserId)
    (fun score => dbPure (jsTruthyAndGeZero score))

def _createTimeline (timelineId : String) (userId : JSVal) (payload : Hash) : DbM String :=
  dbBind (_existsRecord (mkKeyS ["timeline", timelineId])) (fun ex =>
  if ex ≠ 0 then throwM .alreadyExists
  else
    dbBind (_createUserTimeline userId (jsProp payload "name") timelineId) (fun _ =>
    dbBind (_createRecord (mkKeyS ["timeline", timelineId]) payload) (fun _ =>
    dbPure timelineId)))

/-- createTimeline: the freshly generated uuid is passed in as timelineId. -/
def createTimeline (timelineId : String) (payload : Hash) : DbM String :=
  _createTimeline timelineId (jsProp payload "userId") payload

def createUserDiscussionsTimeline (userId : String) (payload : Hash) : DbM String :=
  _createTimeline (getUserDiscussionsTimelineId userId) (.str userId) payload

def addPostToTimeline (timelineId : String) (time : Int) (postId : String) : DbM Nat :=
  _addElementToSortedSet (mkKeyS ["timeline", timelineId, "posts"]) time postId

def isPostPresentInTimeline (timelineId postId : String) : DbM Bool :=
  dbBind (_getSortedSetElementScore (mkKeyS ["timeline", timelineId, "posts"]) postId)
    (fun score => dbPure (jsTruthyAndGeZero score))

def createMergedPostsTimeline (destinationTimelineId sourceTimelineId1 sourceTimelineId2 : String) :
    DbM Nat :=
  zunionstoreMax
    (mkKeyS ["timeline", destinationTimelineId, "posts"])
    (mkKeyS ["timeline", sourceTimelineId1, "posts"])
    (mkKeyS ["timeline", sourceTimelineId2, "posts"])

def _getPostsTimelinesIntersection (destKey sourceTimelineId1 sourceTimelineId2 : String) :
    DbM Nat :=
  zinterstoreMax destKey
    (mkKeyS ["timeline", sourceTimelineId1, "posts"])
    (mkKeyS ["timeline", sourceTimelineId2, "posts"])

def _getTimelinesIntersectionPosts (key : String) : DbM (List String) :=
  zrangeAsync key 0 (-1)

/-- getTimelinesIntersectionPostIds: the freshly generated uuid suffix of
the temporary key is passed in as u. -/
def getTimelinesIntersectionPostIds (timelineId1 timelineId2 u : String) : DbM (List String) :=
  dbBind (_getPostsTimelinesIntersection (mkKeyS ["timeline", timelineId1, "random", u])
    timelineId2 timelineId1) (fun _ =>
  dbBind (_getTimelinesIntersectionPosts (mkKeyS ["timeline", timelineId1, "random", u]))
    (fun postIds =>
  dbBind (_deleteRecord (mkKeyS ["timeline", timelineId1, "random", u])) (fun _ =>
  dbPure postIds)))

/-- createComment: the freshly generated uuid is passed in as commentId. -/
def createComment (commentId : String) (payload : Hash) : DbM String :=
  dbBind (_existsRecord (mkKeyS ["comment", commentId])) (fun ex =>
  if ex ≠ 0 then throwM .alreadyExists
  else dbBind (_createRecord (mkKeyS ["comment", commentId]) payload) (fun _ => dbPure commentId))

/-- createAttachment: the freshly generated uuid is passed in as attachmentId. -/
def createAttachment (attachmentId : String) (payload : Hash) : DbM String :=
  dbBind (_existsRecord (mkKeyS ["attachment", attachmentId])) (fun ex =>
  if ex ≠ 0 then throwM .alreadyExists
  else dbBind (_createRecord (mkKeyS ["attachment", attachmentId]) payload) (fun _ =>
    dbPure attachmentId))

/-!  Helper predicates and lemmas. -/

/-- Value of a key read as a sorted set, a missing key as the empty set. -/
def zAt (s : Store) (k : String) : ZSet :=
  match s k with
  | some (.zset z) => z
  | _ => []

/-- Value of a key read as a hash, a missing key as the empty hash. -/
def hashAtD (s : Store) (k : String) : Hash :=
  match s k with
  | some (.hash h) => h
  | _ => []

/-- Score of a member in the sorted set stored at a key. -/
def zlookupAt (s : Store) (k m : String) : Option Int := lookupZ (zAt s k) m

/-- The key is well typed for sorted-set commands. -/
def zsetOrAbsent (s : Store) (k : String) : Prop :=
  s k = none ∨ ∃ z, s k = some (.zset z)

/-- The key is well typed for hash commands. -/
def hashOrAbsent (s : Store) (k : String) : Prop :=
  s k = none ∨ ∃ h, s k = some (.hash h)

theorem zsetAtE_of_wt {s : Store} {k : String} (h : zsetOrAbsent s k) :
    zsetAtE s k = .ok (zAt s k) := by
  rcases h with h | ⟨z, h⟩ <;> simp [zsetAtE, zAt, h]

theorem Store.set_same (s : Store) (k : String) (v : RVal) : Store.set s k v k = some v := by
  simp [Store.set]

theorem Store.set_other (s : Store) (k : String) (v : RVal) {q : String} (h : q ≠ k) :
    Store.set s k v q = s q := by
  simp [Store.set, h]

theorem Store.del_same (s : Store) (k : String) : Store.del s k k = none := by
  simp [Store.del]

theorem Store.del_other (s : Store) (k : String) {q : String} (h : q ≠ k) :
    Store.del s k q = s q := by
  simp [Store.del, h]

/-- Two appended strings differ when their first parts differ at some
character position inside both. -/
theorem append_ne_of_char (p q a b : String) (i : Nat)
    (hp : i < p.data.length) (hq : i < q.data.length)
    (hne : p.data[i]? ≠ q.data[i]?) : p ++ a ≠ q ++ b := by
  intro h
  have h2 := congrArg String.data h
  rw [String.data_append, String.data_append] at h2
  have h3 := congrArg (fun l => l[i]?) h2
  simp only at h3
  rw [List.getElem?_append_left hp, List.getElem?_append_left hq] at h3
  exact hne h3

theorem userKey_ne_usernameKey (uid u : String) :
    mkKeyS ["user", uid] ≠ mkKeyS ["username", u, "uid"] := by
  show "user:" ++ uid ≠ "username:" ++ (u ++ ":" ++ "uid")
  exact append_ne_of_char _ _ _ _ 4 (by decide) (by decide) (by decide)

theorem userKey_ne_emailKey (uid e : String) :
    mkKeyS ["user", uid] ≠ mkKeyS ["email", e, "uid"] := by
  show "user:" ++ uid ≠ "email:" ++ (e ++ ":" ++ "uid")
  exact append_ne_of_char _ _ _ _ 0 (by decide) (by decide) (by decide)

theorem usernameKey_ne_emailKey (u e : String) :
    mkKeyS ["username", u, "uid"] ≠ mkKeyS ["email", e, "uid"] := by
  show "username:" ++ (u ++ ":" ++ "uid") ≠ "email:" ++ (e ++ ":" ++ "uid")
  exact append_ne_of_char _ _ _ _ 0 (by decide) (by decide) (by decide)

theorem timelineKey_ne_userTimelinesKey (tid uid : String) :
    mkKeyS ["timeline", tid] ≠ mkKeyS ["user", uid, "timelines"] := by
  show "timeline:" ++ tid ≠ "user:" ++ (uid ++ ":" ++ "timelines")
  exact append_ne_of_char _ _ _ _ 0 (by decide) (by decide) (by decide)

theorem lookupZ_nil (m : String) : lookupZ [] m = none := rfl

theorem lookupZ_cons (p : String × Int) (z : ZSet) (m : String) :
    lookupZ (p :: z) m = if p.1 = m then some p.2 else lookupZ z m := by
  by_cases h : p.1 = m <;> simp [lookupZ, List.find?, h]

/-- Membership among a sorted set's members is score presence. -/
theorem mem_keys_iff_lookup (z : ZSet) (m : String) :
    m ∈ z.map Prod.fst ↔ (lookupZ z m).isSome := by
  induction z with
  | nil => simp [lookupZ]
  | cons p z ih =>
    rw [List.map_cons, List.mem_cons, lookupZ_cons]
    by_cases h : p.1 = m
    · simp [h]
    · rw [if_neg h]
      constructor
      · rintro (h2 | h2)
        · exact absurd h2.symm h
        · exact ih.mp h2
      · intro h2
        exact Or.inr (ih.mpr h2)

/-- Score formula for the MAX intersection. -/
theorem lookupZ_zinterMax (a b : ZSet) (m : String) :
    lookupZ (zinterMax a b) m =
      match lookupZ a m, lookupZ b m with
      | some x, some y => some (max x y)
      | _, _ => none := by
  induction a with
  | nil => simp [zinterMax, lookupZ_nil]
  | cons p a ih =>
    by_cases h : p.1 = m
    · subst h
      cases hb : lookupZ b p.1 with
      | none =>
        simp only [zinterMax, List.filterMap, hb, lookupZ_cons, if_pos rfl]
        simpa [zinterMax, hb] using ih
      | some t =>
        simp [zinterMax, List.filterMap, hb, lookupZ_cons]
    · cases hpb : lookupZ b p.1 with
      | none =>
        simp only [zinterMax, List.filterMap, hpb] at ih ⊢
        rw [lookupZ_cons, if_neg h]
        exact ih
      | some t =>
        simp only [zinterMax, List.filterMap, hpb] at ih ⊢
        rw [lookupZ_cons, if_neg h, lookupZ_cons, if_neg h]
        exact ih

/-- The intersection's member list is a sublist of the first input's. -/
theorem keys_zinterMax_sublist (a b : ZSet) :
    List.Sublist ((zinterMax a b).map Prod.fst) (a.map Prod.fst) := by
  induction a with
  | nil => simp [zinterMax]
  | cons p a ih =>
    cases hb : lookupZ b p.1 with
    | none =>
      simp only [zinterMax, List.filterMap, hb] at ih ⊢
      exact ih.cons _
    | some t =>
      simp only [zinterMax, List.filterMap, hb] at ih ⊢
      exact ih.cons₂ _

theorem lookupZ_append (x y : ZSet) (m : String) :
    lookupZ (x ++ y) m =
      match lookupZ x m with
      | some v => some v
      | none => lookupZ y m := by
  induction x with
  | nil => simp [lookupZ_nil]
  | cons p x ih =>
    by_cases h : p.1 = m
    · simp [lookupZ_cons, h]
    · simp only [List.cons_append, lookupZ_cons, if_neg h]
      exact ih

theorem lookupZ_filter_key (b : ZSet) (a : ZSet) (m : String)
    (hm : (lookupZ a m).isNone) :
    lookupZ (b.filter (fun p => (lookupZ a p.1).isNone)) m = lookupZ b m := by
  induction b with
  | nil => rfl
  | cons p b ih =>
    by_cases h : p.1 = m
    · subst h
      rw [List.filter_cons, if_pos (by simpa using hm)]
      simp [lookupZ_cons, ih]
    · rw [List.filter_cons]
      by_cases hp : (lookupZ a p.1).isNone
      · rw [if_pos (by simpa using hp), lookupZ_cons, if_neg h, lookupZ_cons, if_neg h, ih]
      · rw [if_neg (by simpa using hp), lookupZ_cons, if_neg h, ih]

theorem lookupZ_mapMax (a b : ZSet) (m : String) :
    lookupZ ((a : List (String × Int)).map (fun p =>
        match lookupZ b p.1 with
        | some t => (p.1, max p.2 t)
        | none => p)) m =
      match lookupZ a m, lookupZ b m with
      | some x, some y => some (max x y)
      | some x, none => some x
      | none, _ => none := by
  induction a with
  | nil => simp [lookupZ_nil]
  | cons p a ih =>
    by_cases h : p.1 = m
    · subst h
      cases hb : lookupZ b p.1 with
      | none => simp [hb, lookupZ_cons]
      | some t => simp [hb, lookupZ_cons]
    · cases hpb : lookupZ b p.1 with
      | none =>
        simp only [List.map, hpb]
        rw [lookupZ_cons, if_neg h, lookupZ_cons, if_neg h]
        exact ih
      | some t =>
        simp only [List.map, hpb]
        rw [lookupZ_cons, if_neg (by simpa using h), lookupZ_cons, if_neg h]
        exact ih

/-- Score formula for the MAX union. -/
theorem lookupZ_zunionMax (a b : ZSet) (m : String) :
    lookupZ (zunionMax a b) m =
      match lookupZ a m, lookupZ b m with
      | some x, some y => some (max x y)
      | some x, none => some x
      | none, some y => some y
      | none, none => none := by
  rw [zunionMax, lookupZ_append, lookupZ_mapMax]
  cases ha : lookupZ a m with
  | some x => cases hb : lookupZ b m <;> simp
  | none =>
    have := lookupZ_filter_key b a m (by simp [ha])
    rw [this]
    cases hb : lookupZ b m <;> simp

/-- Value of a key read as an optional hash (the HGETALL result for a
well-typed key). -/
def hashAt (s : Store) (k : String) : Option Hash :=
  match s k with
  | some (.hash h) => some h
  | _ => none

theorem hgetallAsync_of_wt {s : Store} {k : String} (h : hashOrAbsent s k) :
    hgetallAsync k s = (.ok (hashAt s k), s) := by
  rcases h with h | ⟨v, h⟩ <;> simp [hgetallAsync, hashAt, h]

theorem zrangeSpec_all (z : ZSet) : zrangeSpec z 0 (-1) = (sortZ z).map Prod.fst := by
  simp only [zrangeSpec]
  norm_num
  by_cases h : sortZ z = []
  · simp [h]
  · rw [if_neg h, show (sortZ z).length = ((sortZ z).map Prod.fst).length from
      (List.length_map _ _).symm, List.take_length]

theorem sortZ_perm (z : ZSet) : (sortZ z).Perm z :=
  List.perm_insertionSort rankLe z

theorem sortZ_sorted (z : ZSet) : List.Sorted rankLe (sortZ z) :=
  List.sorted_insertionSort rankLe z

/-- A member present in a duplicate-free sorted set has its stored score
as lookup result. -/
theorem lookupZ_eq_of_mem {z : ZSet} (hnd : (z.map Prod.fst).Nodup)
    {p : String × Int} (hp : p ∈ z) : lookupZ z p.1 = some p.2 := by
  induction z with
  | nil => cases hp
  | cons q z ih =>
    rcases List.mem_cons.mp hp with h | h
    · subst h
      rw [lookupZ_cons, if_pos rfl]
    · rw [List.map_cons, List.nodup_cons] at hnd
      have hne : q.1 ≠ p.1 := by
        intro he
        exact hnd.1 (he ▸ List.mem_map_of_mem Prod.fst h)
      rw [lookupZ_cons, if_neg hne]
      exact ih hnd.2 h

/-- Truthiness of the source's score check: present exactly for a stored
strictly positive score. -/
theorem jsTruthyAndGeZero_iff (o : Option Int) :
    jsTruthyAndGeZero o = true ↔ ∃ t, o = some t ∧ 0 < t := by
  cases o with
  | none => simp [jsTruthyAndGeZero]
  | some t =>
    by_cases h : t = 0
    · subst h
      simp [jsTruthyAndGeZero]
    · simp only [jsTruthyAndGeZero, if_neg h]
      constructor
      · intro h2
        exact ⟨t, rfl, lt_of_le_of_ne (by simpa using h2) (Ne.symm h)⟩
      · rintro ⟨u, hu, hpos⟩
        cases hu
        simpa using le_of_lt hpos

/-- Batch HGETALL over well-typed keys: one ordered result per id. -/
theorem findRecordsByIds_eq (modelName : String) (ids : List String) (s : Store)
    (h : ∀ id ∈ ids, hashOrAbsent s (mkKeyS [modelName, id])) :
    findRecordsByIds modelName ids s =
      (.ok (ids.map fun id => hashAt s (mkKeyS [modelName, id])), s) := by
  induction ids with
  | nil => rfl
  | cons id ids ih =>
    have h1 : hashOrAbsent s (mkKeyS [modelName, id]) := h id (List.mem_cons_self id ids)
    have h2 : ∀ i ∈ ids, hashOrAbsent s (mkKeyS [modelName, i]) :=
      fun i hi => h i (List.mem_cons_of_mem id hi)
    show dbBind (hgetallAsync (mkKeyS [modelName, id])) _ s = _
    rw [dbBind, hgetallAsync_of_wt h1]
    show dbBind (findRecordsByIds modelName ids) _ s = _
    rw [dbBind, ih h2]
    rfl

/-!  Claim theorems. -/

/-- C8: mkKey returns the segments joined by the fixed separator when
every segment is a string, and raises the validation error exactly when
some segment is not a string.  mkKey is a pure function of its segment
list — it takes no store and performs no store access, so the error is
synchronous and precedes any I/O of its caller. -/
theorem c8_mkKey_contract :
    (∀ l : List String, mkKey (l.map JSVal.str) = .ok (mkKeyS l)) ∧
    (∀ ks : List JSVal, (∀ k ∈ ks, k.isString = true) →
      ∃ l : List String, ks = l.map JSVal.str ∧ mkKey ks = .ok (mkKeyS l)) ∧
    (∀ ks : List JSVal, (∃ k ∈ ks, k.isString = false) →
      mkKey ks = .error .keysShouldBeStrings) ∧
    (∀ (ks : List JSVal) (e : JsError), mkKey ks = .error e →
      e = .keysShouldBeStrings ∧ ∃ k ∈ ks, k.isString = false) := by
  refine ⟨mkKey_strs, ?_, ?_, ?_⟩
  · intro ks hks
    induction ks with
    | nil => exact ⟨[], rfl, rfl⟩
    | cons k ks ih =>
      have hk := hks k (List.mem_cons_self k ks)
      cases k with
      | str v =>
        obtain ⟨l, hl, _⟩ := ih (fun q hq => hks q (List.mem_cons_of_mem _ hq))
        refine ⟨v :: l, by rw [List.map_cons, hl], ?_⟩
        rw [show JSVal.str v :: ks = (v :: l).map JSVal.str from by rw [List.map_cons, hl]]
        exact mkKey_strs (v :: l)
      | num n => cases hk
      | undefined => cases hk
  · intro ks hks
    induction ks with
    | nil =>
      obtain ⟨k, hk, _⟩ := hks
      cases hk
    | cons k ks ih =>
      cases k with
      | str v =>
        have hrest : ∃ q ∈ ks, q.isString = false := by
          obtain ⟨q, hq, hf⟩ := hks
          rcases List.mem_cons.mp hq with h | h
          · subst h
            cases hf
          · exact ⟨q, h, hf⟩
        have := ih hrest
        simp only [mkKey, mkKeyAux] at this ⊢
        cases haux : mkKeyAux ks with
        | ok r => rw [haux] at this; cases this
        | error e =>
          rw [haux] at this
          cases this
          rfl
      | num n => rfl
      | undefined => rfl
  · intro ks e he
    induction ks with
    | nil => cases he
    | cons k ks ih =>
      cases k with
      | str v =>
        simp only [mkKey, mkKeyAux] at he
        cases haux : mkKeyAux ks with
        | ok r => rw [haux] at he; cases he
        | error e2 =>
          rw [haux] at he
          cases he
          obtain ⟨he2, q, hq, hf⟩ := ih (by simp [mkKey, haux, Except.map])
          exact ⟨he2, q, List.mem_cons_of_mem _ hq, hf⟩
      | num n =>
        cases he
        exact ⟨rfl, .num n, List.mem_cons_self _ _, rfl⟩
      | undefined =>
        cases he
        exact ⟨rfl, .undefined, List.mem_cons_self _ _, rfl⟩

/-- C8 witness: concrete evaluations through the theorem. -/
theorem c8_mkKey_contract_witness :
    mkKey [.str "post", .str "p1", .str "likes"] = .ok "post:p1:likes" ∧
    mkKey [.str "reset", .undefined, .str "uid"] = .error .keysShouldBeStrings := by
  refine ⟨?_, ?_⟩
  · exact c8_mkKey_contract.1 ["post", "p1", "likes"]
  · exact c8_mkKey_contract.2.2.1 [.str "reset", .undefined, .str "uid"]
      ⟨.undefined, by simp, rfl⟩

/-- C6: hasUserLikedPost, isPostPresentInTimeline and
isSubscriptionRequestPresent report the member as present exactly when a
score is stored and strictly positive; an absent score, a stored zero
score and a stored negative score are all reported identically as false
(in the source the raw falsy values differ — null, 0, false — but the
reported boolean is the same "not present"). -/
theorem c6_presence_checks (s : Store) (userId postId timelineId currentUserId followedUserId : String)
    (h1 : zsetOrAbsent s (mkKeyS ["post", postId, "likes"]))
    (h2 : zsetOrAbsent s (mkKeyS ["timeline", timelineId, "posts"]))
    (h3 : zsetOrAbsent s (mkKeyS ["user", followedUserId, "requests"])) :
    (∃ b : Bool, hasUserLikedPost userId postId s = (.ok b, s) ∧
      (b = true ↔ ∃ t, zlookupAt s (mkKeyS ["post", postId, "likes"]) userId = some t ∧ 0 < t)) ∧
    (∃ b : Bool, isPostPresentInTimeline timelineId postId s = (.ok b, s) ∧
      (b = true ↔ ∃ t, zlookupAt s (mkKeyS ["timeline", timelineId, "posts"]) postId = some t ∧ 0 < t)) ∧
    (∃ b : Bool, isSubscriptionRequestPresent currentUserId followedUserId s = (.ok b, s) ∧
      (b = true ↔ ∃ t, zlookupAt s (mkKeyS ["user", followedUserId, "requests"]) currentUserId = some t ∧ 0 < t)) := by
  refine ⟨?_, ?_, ?_⟩
  · refine ⟨jsTruthyAndGeZero (zlookupAt s (mkKeyS ["post", postId, "likes"]) userId), ?_, jsTruthyAndGeZero_iff _⟩
    show dbBind (zscoreAsync _ _) _ s = _
    rcases h1 with h | ⟨z, h⟩ <;>
      simp [dbBind, zscoreAsync, h, dbPure, zlookupAt, zAt, lookupZ_nil]
  · refine ⟨jsTruthyAndGeZero (zlookupAt s (mkKeyS ["timeline", timelineId, "posts"]) postId), ?_, jsTruthyAndGeZero_iff _⟩
    show dbBind (zscoreAsync _ _) _ s = _
    rcases h2 with h | ⟨z, h⟩ <;>
      simp [dbBind, zscoreAsync, h, dbPure, zlookupAt, zAt, lookupZ_nil]
  · refine ⟨jsTruthyAndGeZero (zlookupAt s (mkKeyS ["user", followedUserId, "requests"]) currentUserId), ?_, jsTruthyAndGeZero_iff _⟩
    show dbBind (zscoreAsync _ _) _ s = _
    rcases h3 with h | ⟨z, h⟩ <;>
      simp [dbBind, zscoreAsync, h, dbPure, zlookupAt, zAt, lookupZ_nil]

/-- A concrete store for the presence-check witness: a zero score, a
negative score and a positive score stored side by side. -/
def likesStore : Store := fun k =>
  if k = "post:p1:likes" then some (.zset [("zeroUser", 0), ("negUser", -3), ("posUser", 7)])
  else none

/-- C6 witness: on likesStore the check reports false for the zero and
negative scores and for an absent member, true for the positive one. -/
theorem c6_presence_checks_witness :
    (hasUserLikedPost "zeroUser" "p1" likesStore).1 = .ok false ∧
    (hasUserLikedPost "negUser" "p1" likesStore).1 = .ok false ∧
    (hasUserLikedPost "ghostUser" "p1" likesStore).1 = .ok false ∧
    (hasUserLikedPost "posUser" "p1" likesStore).1 = .ok true := by
  have h := c6_presence_checks likesStore "zeroUser" "p1" "t1" "c1" "f1"
    (Or.inr ⟨[("zeroUser", 0), ("negUser", -3), ("posUser", 7)], by decide⟩)
    (Or.inl (by decide)) (Or.inl (by decide))
  obtain ⟨⟨b, hb, hiff⟩, -, -⟩ := h
  refine ⟨?_, rfl, rfl, rfl⟩
  have hbf : b = false := by
    cases b with
    | false => rfl
    | true =>
      obtain ⟨t, ht, hpos⟩ := hiff.mp rfl
      rw [show zlookupAt likesStore (mkKeyS ["post", "p1", "likes"]) "zeroUser" = some 0 from by decide] at ht
      cases ht
      exact absurd hpos (by decide)
  rw [hb, hbf]

/-- C4: findRecordsByIds returns one entry per input id, in input order,
with the absent marker (none) at the positions of ids without a record —
for every entity kind, every id list and every mix of present and absent
ids (hypothesis: each addressed key is a hash or absent, the well-typing
every record write of this layer maintains). -/
theorem c4_find_records_by_ids (modelName : String) (ids : List String) (s : Store)
    (hwt : ∀ id ∈ ids, hashOrAbsent s (mkKeyS [modelName, id])) :
    ∃ l : List (Option Hash),
      findRecordsByIds modelName ids s = (.ok l, s) ∧
      l = ids.map (fun id => hashAt s (mkKeyS [modelName, id])) ∧
      l.length = ids.length ∧
      (∀ i : Fin ids.length,
        l.get? i.1 = some (hashAt s (mkKeyS [modelName, ids.get i]))) := by
  refine ⟨ids.map (fun id => hashAt s (mkKeyS [modelName, id])),
    findRecordsByIds_eq modelName ids s hwt, rfl, List.length_map _ _, ?_⟩
  intro i
  rw [List.get?_map]
  rw [show ids.get? i.1 = some (ids.get i) from List.get?_eq_get i.2]
  rfl

/-- A concrete store for the batch-read witness: records exist for u1
and u3 but not u2. -/
def batchStore : Store := fun k =>
  if k = "user:u1" then some (.hash [("username", "alice")])
  else if k = "user:u3" then some (.hash [("username", "carol")])
  else none

/-- C4 witness: the known/unknown/known mix comes back in order with the
absent marker in the middle. -/
theorem c4_find_records_by_ids_witness :
    ∃ l : List (Option Hash),
      findRecordsByIds "user" ["u1", "u2", "u3"] batchStore = (.ok l, batchStore) ∧
      l = [some [("username", "alice")], none, some [("username", "carol")]] := by
  obtain ⟨l, hrun, hl, -, -⟩ := c4_find_records_by_ids "user" ["u1", "u2", "u3"] batchStore
    (by
      intro id hid
      fin_cases hid
      · exact Or.inr ⟨[("username", "alice")], by decide⟩
      · exact Or.inl (by decide)
      · exact Or.inr ⟨[("username", "carol")], by decide⟩)
  exact ⟨l, hrun, by rw [hl]; rfl⟩

/-- C7: getUserById and getGroupById return none when no account record
exists at the id, and raise the explicit type-mismatch error — never
none and never the wrong object — when the record's stored type
discriminator resolves to the other variant. -/
theorem c7_typed_account_lookups (s : Store) (id : String) :
    (s (mkKeyS ["user", id]) = none →
      getUserById id s = (.ok none, s) ∧ getGroupById id s = (.ok none, s)) ∧
    (∀ h : Hash, s (mkKeyS ["user", id]) = some (.hash h) →
      (hget h "type" = some "group" →
        getUserById id s = (.error .expectedUserGotGroup, s) ∧
        getGroupById id s = (.ok (some (.group ⟨id, h⟩)), s)) ∧
      (hget h "type" ≠ some "group" →
        getUserById id s = (.ok (some (.user ⟨id, h⟩)), s) ∧
        getGroupById id s = (.error .expectedGroupGotUser, s))) := by
  constructor
  · intro habs
    constructor <;>
      simp [getUserById, getGroupById, getFeedOwnerById, _getRecord, hgetallAsync, habs,
        dbBind, dbPure]
  · intro h hrec
    constructor
    · intro hty
      constructor <;>
        simp [getUserById, getGroupById, getFeedOwnerById, _getRecord, hgetallAsync, hrec,
          dbBind, dbPure, mkFeedOwner, hty, throwM]
    · intro hty
      constructor <;>
        simp [getUserById, getGroupById, getFeedOwnerById, _getRecord, hgetallAsync, hrec,
          dbBind, dbPure, mkFeedOwner, hty, throwM]

/-- A concrete store for the typed-lookup witness: a person record and a
group record. -/
def accountStore : Store := fun k =>
  if k = "user:p1" then some (.hash [("username", "alice"), ("type", "user")])
  else if k = "user:g1" then some (.hash [("username", "devs"), ("type", "group")])
  else none

/-- C7 witness: absent id gives none for both lookups; the group record
makes getUserById raise the mismatch error and getGroupById succeed. -/
theorem c7_typed_account_lookups_witness :
    getUserById "nobody" accountStore = (.ok none, accountStore) ∧
    getUserById "g1" accountStore = (.error .expectedUserGotGroup, accountStore) ∧
    getGroupById "g1" accountStore =
      (.ok (some (.group ⟨"g1", [("username", "devs"), ("type", "group")]⟩)), accountStore) ∧
    getGroupById "p1" accountStore = (.error .expectedGroupGotUser, accountStore) := by
  have h1 := (c7_typed_account_lookups accountStore "nobody").1 (by decide)
  have h2 := (c7_typed_account_lookups accountStore "g1").2
    [("username", "devs"), ("type", "group")] (by decide)
  have h3 := (c7_typed_account_lookups accountStore "p1").2
    [("username", "alice"), ("type", "user")] (by decide)
  exact ⟨h1.1, (h2.1 (by decide)).1, (h2.1 (by decide)).2, (h3.2 (by decide)).2⟩

theorem initFeedOwners_error (f : String → Option Hash) (ids : List String)
    (h : ∃ id ∈ ids, f id = none) :
    initFeedOwners ((ids.map f).zip ids) = .error .typeErrorNullRead := by
  induction ids with
  | nil =>
    obtain ⟨id, hid, -⟩ := h
    cases hid
  | cons id0 ids ih =>
    cases hf : f id0 with
    | none => simp [initFeedOwners, hf]
    | some h0 =>
      obtain ⟨id, hid, hnone⟩ := h
      rcases List.mem_cons.mp hid with he | hmem
      · subst he
        rw [hf] at hnone
        cases hnone
      · have hrec := ih ⟨id, hmem, hnone⟩
        simp [initFeedOwners, hf, hrec, Except.map]

/-- C9: when some requested id has no stored account record,
getFeedOwnersByIds raises the null-property-read error instead of
returning an absent marker at that position — and getUsersByIds, which
delegates to it, propagates the same error — even though the underlying
batch read returns one ordered entry per id with absent markers. -/
theorem c9_absent_id_raises (ids : List String) (s : Store)
    (hwt : ∀ id ∈ ids, hashOrAbsent s (mkKeyS ["user", id]))
    (habs : ∃ id ∈ ids, s (mkKeyS ["user", id]) = none) :
    getFeedOwnersByIds ids s = (.error .typeErrorNullRead, s) ∧
    getUsersByIds ids s = (.error .typeErrorNullRead, s) ∧
    findRecordsByIds "user" ids s =
      (.ok (ids.map fun id => hashAt s (mkKeyS ["user", id])), s) := by
  have hrec := findRecordsByIds_eq "user" ids s hwt
  have herr : initFeedOwners
      ((ids.map fun id => hashAt s (mkKeyS ["user", id])).zip ids) =
      .error .typeErrorNullRead := by
    apply initFeedOwners_error
    obtain ⟨id, hid, hn⟩ := habs
    exact ⟨id, hid, by simp [hashAt, hn]⟩
  have hfo : getFeedOwnersByIds ids s = (.error .typeErrorNullRead, s) := by
    show dbBind (findRecordsByIds "user" ids) _ s = _
    rw [dbBind, hrec]
    simp [liftE, herr]
  refine ⟨hfo, ?_, hrec⟩
  show dbBind (getFeedOwnersByIds ids) _ s = _
  rw [dbBind, hfo]

/-- C9 witness: batchStore has no record for u2, so the typed batch
lookups on [u1, u2] raise while the raw batch read returns the ordered
markers. -/
theorem c9_absent_id_raises_witness :
    getFeedOwnersByIds ["u1", "u2"] batchStore = (.error .typeErrorNullRead, batchStore) ∧
    getUsersByIds ["u1", "u2"] batchStore = (.error .typeErrorNullRead, batchStore) ∧
    findRecordsByIds "user" ["u1", "u2"] batchStore =
      (.ok [some [("username", "alice")], none], batchStore) := by
  have h := c9_absent_id_raises ["u1", "u2"] batchStore
    (by
      intro id hid
      fin_cases hid
      · exact Or.inr ⟨[("username", "alice")], by decide⟩
      · exact Or.inl (by decide))
    ⟨"u2", by simp, by decide⟩
  exact ⟨h.1, h.2.1, by rw [h.2.2]; rfl⟩

/-- C10: the primary-record create write and the update write are the
same function (both an HMSET partial-field merge); _createRecord can
never itself raise the Conflict error, so the Conflict behaviour of the
guarded creates comes solely from the preceding existence probe; and
_createUserTimeline against an account that already has a timelines
record merges the new name-to-id field into the existing record instead
of failing. -/
theorem c10_create_is_update :
    _createRecord = _updateRecord ∧
    (∀ (k : String) (p : Hash) (s : Store), (_createRecord k p s).1 ≠ .error .alreadyExists) ∧
    (∀ (uid tname tid : String) (s : Store) (h : Hash),
      s (mkKeyS ["user", uid, "timelines"]) = some (.hash h) →
      _createUserTimeline (.str uid) (.str tname) tid s =
        (.ok (), Store.set s (mkKeyS ["user", uid, "timelines"])
          (.hash (hmerge h [(tname, tid)])))) := by
  refine ⟨rfl, ?_, ?_⟩
  · intro k p s
    unfold _createRecord hmsetAsync
    cases hk : s k with
    | none => simp
    | some v => cases v <;> simp
  · intro uid tname tid s h hrec
    show (match mkKey [.str "user", .str uid, .str "timelines"] with
          | .error e => throwM e
          | .ok k => _createRecord k [(jsPropKeyName (.str tname), tid)]) s = _
    rw [show mkKey [.str "user", .str uid, .str "timelines"] =
        .ok (mkKeyS ["user", uid, "timelines"]) from mkKey_strs ["user", uid, "timelines"]]
    simp [_createRecord, hmsetAsync, hrec, jsPropKeyName]

/-- A store already holding a timelines record for u1. -/
def tlStore : Store := fun k =>
  if k = "user:u1:timelines" then some (.hash [("Posts", "t1")]) else none

/-- C10 witness: the second timeline name is merged into the existing
timelines record. -/
theorem c10_create_is_update_witness :
    _createUserTimeline (.str "u1") (.str "Likes") "t2" tlStore =
      (.ok (), Store.set tlStore (mkKeyS ["user", "u1", "timelines"])
        (.hash (hmerge [("Posts", "t1")] [("Likes", "t2")]))) :=
  c10_create_is_update.2.2 "u1" "Likes" "t2" tlStore [("Posts", "t1")] (by decide)

theorem dbBind_eq_ok {α β : Type} {m : DbM α} {s s1 : Store} {a : α}
    (h : m s = (.ok a, s1)) (f : α → DbM β) : dbBind m f s = f a s1 := by
  unfold dbBind
  rw [h]

theorem dbBind_eq_err {α β : Type} {m : DbM α} {s s1 : Store} {e : JsError}
    (h : m s = (.error e, s1)) (f : α → DbM β) : dbBind m f s = (.error e, s1) := by
  unfold dbBind
  rw [h]

theorem existsRecord_one {s : Store} {k : String} (h : (s k).isSome = true) :
    _existsRecord k s = (.ok 1, s) := by
  simp [_existsRecord, existsAsync, h]

theorem existsRecord_zero {s : Store} {k : String} (h : s k = none) :
    _existsRecord k s = (.ok 0, s) := by
  simp [_existsRecord, existsAsync, h]

/-- Final store of a successful createUser: username index write, then
the primary record write, then the optional email index write. -/
def createUserFinalStore (s : Store) (uid uname : String) (payload : Hash) : Store :=
  let s1 := Store.set s (mkKeyS ["username", uname, "uid"]) (.str uid)
  let s2 := Store.set s1 (mkKeyS ["user", uid]) (.hash (hmerge [] payload))
  match hget payload "email" with
  | some e =>
    if 0 < e.length then Store.set s2 (mkKeyS ["email", jsToLowerCase e, "uid"]) (.str uid)
    else s2
  | none => s2

theorem createUser_success (s : Store) (uid uname : String) (payload : Hash)
    (habs : s (mkKeyS ["user", uid]) = none)
    (hu : hget payload "username" = some uname) :
    createUser uid payload s = (.ok uid, createUserFinalStore s uid uname payload) := by
  show dbBind (_existsRecord (mkKeyS ["user", uid])) _ s = _
  rw [dbBind_eq_ok (existsRecord_zero habs)]
  simp only [ne_eq, not_true_eq_false, if_neg, reduceIte]
  rw [show jsProp payload "username" = JSVal.str uname from by simp [jsProp, hu]]
  have h1 : _createUserUsernameIndex uid (.str uname) s =
      (.ok (), Store.set s (mkKeyS ["username", uname, "uid"]) (.str uid)) := by
    show (match mkKey [.str "username", .str uname, .str "uid"] with
          | .error e => throwM e
          | .ok k => _setIndexValue k uid) s = _
    rw [show mkKey [.str "username", .str uname, .str "uid"] =
        .ok (mkKeyS ["username", uname, "uid"]) from mkKey_strs ["username", uname, "uid"]]
    rfl
  rw [dbBind_eq_ok h1]
  have h2 : _createRecord (mkKeyS ["user", uid]) payload
      (Store.set s (mkKeyS ["username", uname, "uid"]) (.str uid)) =
      (.ok (), Store.set (Store.set s (mkKeyS ["username", uname, "uid"]) (.str uid))
        (mkKeyS ["user", uid]) (.hash (hmerge [] payload))) := by
    have hk : Store.set s (mkKeyS ["username", uname, "uid"]) (.str uid)
        (mkKeyS ["user", uid]) = none := by
      rw [Store.set_other _ _ _ (userKey_ne_usernameKey uid uname), habs]
    simp [_createRecord, hmsetAsync, hk]
  rw [dbBind_eq_ok h2]
  cases he : hget payload "email" with
  | none => simp [createUserFinalStore, he, dbBind, dbPure]
  | some e =>
    by_cases hlen : 0 < e.length
    · simp only [he, if_pos hlen]
      rw [dbBind_eq_ok (show createUserEmailIndex uid e _ = _ from rfl)]
      simp [createUserFinalStore, he, if_pos hlen, dbPure, createUserEmailIndex,
        _setIndexValue, setAsync, _normalizeUserEmail]
    · simp only [he, if_neg hlen]
      simp [createUserFinalStore, he, if_neg hlen, dbBind, dbPure]

theorem createTimeline_success (s : Store) (tid uid tname : String) (payload : Hash)
    (habs : s (mkKeyS ["timeline", tid]) = none)
    (hwt : hashOrAbsent s (mkKeyS ["user", uid, "timelines"]))
    (hn : hget payload "name" = some tname) :
    _createTimeline tid (.str uid) payload s =
      (.ok tid,
        Store.set
          (Store.set s (mkKeyS ["user", uid, "timelines"])
            (.hash (hmerge (hashAtD s (mkKeyS ["user", uid, "timelines"])) [(tname, tid)])))
          (mkKeyS ["timeline", tid]) (.hash (hmerge [] payload))) := by
  show dbBind (_existsRecord (mkKeyS ["timeline", tid])) _ s = _
  rw [dbBind_eq_ok (existsRecord_zero habs)]
  simp only [ne_eq, not_true_eq_false, if_neg, reduceIte]
  rw [show jsProp payload "name" = JSVal.str tname from by simp [jsProp, hn]]
  have h1 : _createUserTimeline (.str uid) (.str tname) tid s =
      (.ok (), Store.set s (mkKeyS ["user", uid, "timelines"])
        (.hash (hmerge (hashAtD s (mkKeyS ["user", uid, "timelines"])) [(tname, tid)]))) := by
    show (match mkKey [.str "user", .str uid, .str "timelines"] with
          | .error e => throwM e
          | .ok k => _createRecord k [(jsPropKeyName (.str tname), tid)]) s = _
    rw [show mkKey [.str "user", .str uid, .str "timelines"] =
        .ok (mkKeyS ["user", uid, "timelines"]) from mkKey_strs ["user", uid, "timelines"]]
    rcases hwt with h | ⟨v, h⟩ <;>
      simp [_createRecord, hmsetAsync, h, hashAtD, jsPropKeyName]
  rw [dbBind_eq_ok h1]
  have h2 : Store.set s (mkKeyS ["user", uid, "timelines"])
      (.hash (hmerge (hashAtD s (mkKeyS ["user", uid, "timelines"])) [(tname, tid)]))
      (mkKeyS ["timeline", tid]) = none := by
    rw [Store.set_other _ _ _ (timelineKey_ne_userTimelinesKey tid uid), habs]
  have h3 : _createRecord (mkKeyS ["timeline", tid]) payload
      (Store.set s (mkKeyS ["user", uid, "timelines"])
        (.hash (hmerge (hashAtD s (mkKeyS ["user", uid, "timelines"])) [(tname, tid)]))) =
      (.ok (), Store.set
        (Store.set s (mkKeyS ["user", uid, "timelines"])
          (.hash (hmerge (hashAtD s (mkKeyS ["user", uid, "timelines"])) [(tname, tid)])))
        (mkKeyS ["timeline", tid]) (.hash (hmerge [] payload))) := by
    simp [_createRecord, hmsetAsync, h2]
  rw [dbBind_eq_ok h3]
  rfl

/-- C3: every guarded create (createUser, createPost, createComment,
createAttachment, and _createTimeline behind createTimeline and
createUserDiscussionsTimeline) fails with the Conflict error and writes
nothing when a primary record already exists at the chosen id, and
otherwise writes the primary record plus its secondary index entries
(username/email index for users, the timeline-name-to-id mapping for
timelines) and returns the new id. -/
theorem c3_guarded_creates (s : Store) (id uid uname tname : String) (payload : Hash) :
    ((s (mkKeyS ["user", id])).isSome = true →
      createUser id payload s = (.error .alreadyExists, s)) ∧
    ((s (mkKeyS ["post", id])).isSome = true →
      createPost id payload s = (.error .alreadyExists, s)) ∧
    ((s (mkKeyS ["comment", id])).isSome = true →
      createComment id payload s = (.error .alreadyExists, s)) ∧
    ((s (mkKeyS ["attachment", id])).isSome = true →
      createAttachment id payload s = (.error .alreadyExists, s)) ∧
    ((s (mkKeyS ["timeline", id])).isSome = true →
      _createTimeline id (.str uid) payload s = (.error .alreadyExists, s)) ∧
    (s (mkKeyS ["post", id]) = none →
      createPost id payload s =
        (.ok id, Store.set s (mkKeyS ["post", id]) (.hash (hmerge [] payload)))) ∧
    (s (mkKeyS ["comment", id]) = none →
      createComment id payload s =
        (.ok id, Store.set s (mkKeyS ["comment", id]) (.hash (hmerge [] payload)))) ∧
    (s (mkKeyS ["attachment", id]) = none →
      createAttachment id payload s =
        (.ok id, Store.set s (mkKeyS ["attachment", id]) (.hash (hmerge [] payload)))) ∧
    (s (mkKeyS ["user", id]) = none → hget payload "username" = some uname →
      ∃ s1, createUser id payload s = (.ok id, s1) ∧
        s1 (mkKeyS ["user", id]) = some (.hash (hmerge [] payload)) ∧
        s1 (mkKeyS ["username", uname, "uid"]) = some (.str id) ∧
        (∀ e, hget payload "email" = some e → 0 < e.length →
          s1 (mkKeyS ["email", jsToLowerCase e, "uid"]) = some (.str id))) ∧
    (s (mkKeyS ["timeline", id]) = none →
      hashOrAbsent s (mkKeyS ["user", uid, "timelines"]) →
      hget payload "name" = some tname →
      ∃ s1, _createTimeline id (.str uid) payload s = (.ok id, s1) ∧
        s1 (mkKeyS ["timeline", id]) = some (.hash (hmerge [] payload)) ∧
        s1 (mkKeyS ["user", uid, "timelines"]) =
          some (.hash (hmerge (hashAtD s (mkKeyS ["user", uid, "timelines"])) [(tname, id)]))) ∧
    (∀ p2 : Hash, createTimeline id p2 = _createTimeline id (jsProp p2 "userId") p2) ∧
    (∀ p2 : Hash, createUserDiscussionsTimeline uid p2 = _createTimeline uid (.str uid) p2) := by
  refine ⟨?_, ?_, ?_, ?_, ?_, ?_, ?_, ?_, ?_, ?_, fun _ => rfl, fun _ => rfl⟩
  · intro h
    show dbBind (_existsRecord (mkKeyS ["user", id])) _ s = _
    rw [dbBind_eq_ok (existsRecord_one h)]
    simp [throwM]
  · intro h
    show dbBind (_existsRecord (mkKeyS ["post", id])) _ s = _
    rw [dbBind_eq_ok (existsRecord_one h)]
    simp [throwM]
  · intro h
    show dbBind (_existsRecord (mkKeyS ["comment", id])) _ s = _
    rw [dbBind_eq_ok (existsRecord_one h)]
    simp [throwM]
  · intro h
    show dbBind (_existsRecord (mkKeyS ["attachment", id])) _ s = _
    rw [dbBind_eq_ok (existsRecord_one h)]
    simp [throwM]
  · intro h
    show dbBind (_existsRecord (mkKeyS ["timeline", id])) _ s = _
    rw [dbBind_eq_ok (existsRecord_one h)]
    simp [throwM]
  · intro h
    show dbBind (_existsRecord (mkKeyS ["post", id])) _ s = _
    rw [dbBind_eq_ok (existsRecord_zero h)]
    simp only [ne_eq, not_true_eq_false, if_neg, reduceIte]
    have h2 : _createRecord (mkKeyS ["post", id]) payload s =
        (.ok (), Store.set s (mkKeyS ["post", id]) (.hash (hmerge [] payload))) := by
      simp [_createRecord, hmsetAsync, h]
    rw [dbBind_eq_ok h2]
    rfl
  · intro h
    show dbBind (_existsRecord (mkKeyS ["comment", id])) _ s = _
    rw [dbBind_eq_ok (existsRecord_zero h)]
    simp only [ne_eq, not_true_eq_false, if_neg, reduceIte]
    have h2 : _createRecord (mkKeyS ["comment", id]) payload s =
        (.ok (), Store.set s (mkKeyS ["comment", id]) (.hash (hmerge [] payload))) := by
      simp [_createRecord, hmsetAsync, h]
    rw [dbBind_eq_ok h2]
    rfl
  · intro h
    show dbBind (_existsRecord (mkKeyS ["attachment", id])) _ s = _
    rw [dbBind_eq_ok (existsRecord_zero h)]
    simp only [ne_eq, not_true_eq_false, if_neg, reduceIte]
    have h2 : _createRecord (mkKeyS ["attachment", id]) payload s =
        (.ok (), Store.set s (mkKeyS ["attachment", id]) (.hash (hmerge [] payload))) := by
      simp [_createRecord, hmsetAsync, h]
    rw [dbBind_eq_ok h2]
    rfl
  · intro habs hu
    refine ⟨createUserFinalStore s id uname payload,
      createUser_success s id uname payload habs hu, ?_, ?_, ?_⟩
    · cases he : hget payload "email" with
      | none =>
        simp only [createUserFinalStore, he]
        exact Store.set_same _ _ _
      | some e =>
        by_cases hlen : 0 < e.length
        · simp only [createUserFinalStore, he, if_pos hlen]
          rw [Store.set_other _ _ _ (userKey_ne_emailKey id (jsToLowerCase e))]
          exact Store.set_same _ _ _
        · simp only [createUserFinalStore, he, if_neg hlen]
          exact Store.set_same _ _ _
    · cases he : hget payload "email" with
      | none =>
        simp only [createUserFinalStore, he]
        rw [Store.set_other _ _ _ (Ne.symm (userKey_ne_usernameKey id uname))]
        exact Store.set_same _ _ _
      | some e =>
        by_cases hlen : 0 < e.length
        · simp only [createUserFinalStore, he, if_pos hlen]
          rw [Store.set_other _ _ _ (usernameKey_ne_emailKey uname (jsToLowerCase e)),
            Store.set_other _ _ _ (Ne.symm (userKey_ne_usernameKey id uname))]
          exact Store.set_same _ _ _
        · simp only [createUserFinalStore, he, if_neg hlen]
          rw [Store.set_other _ _ _ (Ne.symm (userKey_ne_usernameKey id uname))]
          exact Store.set_same _ _ _
    · intro e he hlen
      simp only [createUserFinalStore, he, if_pos hlen]
      exact Store.set_same _ _ _
  · intro habs hwt hn
    refine ⟨_, createTimeline_success s id uid tname payload habs hwt hn, ?_, ?_⟩
    · exact Store.set_same _ _ _
    · rw [Store.set_other _ _ _ (Ne.symm (timelineKey_ne_userTimelinesKey id uid))]
      exact Store.set_same _ _ _

/-- A store already holding a post record at the id chosen for a
duplicate create. -/
def conflictStore : Store := fun k =>
  if k = "post:dup" then some (.hash [("body", "x")]) else none

/-- C3 witness: the duplicate id is rejected with Conflict and no write;
a fresh createUser writes the primary record and the username index and
returns the id. -/
theorem c3_guarded_creates_witness :
    createPost "dup" [("body", "y")] conflictStore = (.error .alreadyExists, conflictStore) ∧
    (∃ s1, createUser "u9" [("username", "dave")] emptyStore = (.ok "u9", s1) ∧
      s1 (mkKeyS ["user", "u9"]) = some (.hash (hmerge [] [("username", "dave")])) ∧
      s1 (mkKeyS ["username", "dave", "uid"]) = some (.str "u9")) := by
  have h1 := (c3_guarded_creates conflictStore "dup" "u0" "x" "x" [("body", "y")]).2.1
    (by decide)
  have h2 := (c3_guarded_creates emptyStore "u9" "u0" "dave" "x"
    [("username", "dave")]).2.2.2.2.2.2.2.2.1 (by decide) (by decide)
  obtain ⟨s1, ha, hb, hc, -⟩ := h2
  exact ⟨h1, s1, ha, hb, hc⟩

theorem createUserFinal_at_userKey (s : Store) (uid uname : String) (payload : Hash) :
    createUserFinalStore s uid uname payload (mkKeyS ["user", uid]) =
      some (.hash (hmerge [] payload)) := by
  cases he : hget payload "email" with
  | none =>
    simp only [createUserFinalStore, he]
    exact Store.set_same _ _ _
  | some e =>
    by_cases hlen : 0 < e.length
    · simp only [createUserFinalStore, he, if_pos hlen]
      rw [Store.set_other _ _ _ (userKey_ne_emailKey uid (jsToLowerCase e))]
      exact Store.set_same _ _ _
    · simp only [createUserFinalStore, he, if_neg hlen]
      exact Store.set_same _ _ _

theorem createUserFinal_at_usernameKey (s : Store) (uid uname : String) (payload : Hash) :
    createUserFinalStore s uid uname payload (mkKeyS ["username", uname, "uid"]) =
      some (.str uid) := by
  cases he : hget payload "email" with
  | none =>
    simp only [createUserFinalStore, he]
    rw [Store.set_other _ _ _ (Ne.symm (userKey_ne_usernameKey uid uname))]
    exact Store.set_same _ _ _
  | some e =>
    by_cases hlen : 0 < e.length
    · simp only [createUserFinalStore, he, if_pos hlen]
      rw [Store.set_other _ _ _ (usernameKey_ne_emailKey uname (jsToLowerCase e)),
        Store.set_other _ _ _ (Ne.symm (userKey_ne_usernameKey uid uname))]
      exact Store.set_same _ _ _
    · simp only [createUserFinalStore, he, if_neg hlen]
      rw [Store.set_other _ _ _ (Ne.symm (userKey_ne_usernameKey uid uname))]
      exact Store.set_same _ _ _

/-- C5 counterexample: creating an account whose username is "Alice"
stores the username index entry under "Alice" exactly as supplied — not
under the lower-cased "alice" the claim asserts — and because
getFeedOwnerByUsername lower-cases its argument before composing the
key, looking the account up by the very same case variant "Alice"
returns none instead of resolving to the account. -/
theorem c5_username_case_counterexample :
    (createUser "uid1" [("username", "Alice")] emptyStore).1 = .ok "uid1" ∧
    (createUser "uid1" [("username", "Alice")] emptyStore).2
      (mkKeyS ["username", jsToLowerCase "Alice", "uid"]) = none ∧
    (createUser "uid1" [("username", "Alice")] emptyStore).2
      (mkKeyS ["username", "Alice", "uid"]) = some (.str "uid1") ∧
    (getFeedOwnerByUsername "Alice"
      (createUser "uid1" [("username", "Alice")] emptyStore).2).1 = .ok none := by
  exact ⟨rfl, by decide, by decide, rfl⟩

/-- C5 amended: the username index entry is stored under the username
exactly as supplied (the write side does not case-normalize), while
resolve-by-username lower-cases its argument before composing the index
key — so getFeedOwnerByUsername applied to a case variant of the
username resolves to the account exactly when the stored username is
already lower-case.  This theorem proves the positive half: for a
lower-case username u, every case variant v of u resolves. -/
theorem c5_username_index_amended (s : Store) (uid u v : String) (payload : Hash)
    (hu : hget payload "username" = some u)
    (hv : jsToLowerCase v = u)
    (habs : s (mkKeyS ["user", uid]) = none) :
    ∃ s1, createUser uid payload s = (.ok uid, s1) ∧
      s1 (mkKeyS ["username", u, "uid"]) = some (.str uid) ∧
      getFeedOwnerByUsername v s1 =
        (.ok (some (mkFeedOwner (hmerge [] payload) uid)), s1) := by
  refine ⟨createUserFinalStore s uid u payload,
    createUser_success s uid u payload habs hu,
    createUserFinal_at_usernameKey s uid u payload, ?_⟩
  show dbBind (getUserIdByUsername (jsToLowerCase v)) _ (createUserFinalStore s uid u payload) = _
  rw [hv]
  have hg : getUserIdByUsername u (createUserFinalStore s uid u payload) =
      (.ok (some uid), createUserFinalStore s uid u payload) := by
    simp [getUserIdByUsername, _getIndexValue, getAsync,
      createUserFinal_at_usernameKey s uid u payload]
  rw [dbBind_eq_ok hg]
  show dbBind (_getRecord (mkKeyS ["user", uid])) _ (createUserFinalStore s uid u payload) = _
  have hr : _getRecord (mkKeyS ["user", uid]) (createUserFinalStore s uid u payload) =
      (.ok (some (hmerge [] payload)), createUserFinalStore s uid u payload) := by
    simp [_getRecord, hgetallAsync, createUserFinal_at_userKey s uid u payload]
  rw [dbBind_eq_ok hr]
  rfl

/-- C5 amended witness: the lower-case username "bob" is resolvable
through the mixed-case variant "BoB". -/
theorem c5_username_index_amended_witness :
    ∃ s1, createUser "u7" [("username", "bob")] emptyStore = (.ok "u7", s1) ∧
      s1 (mkKeyS ["username", "bob", "uid"]) = some (.str "u7") ∧
      getFeedOwnerByUsername "BoB" s1 =
        (.ok (some (mkFeedOwner (hmerge [] [("username", "bob")]) "u7")), s1) :=
  c5_username_index_amended emptyStore "u7" "bob" "BoB" [("username", "bob")]
    (by decide) (by decide) (by decide)

/-- C2: createMergedPostsTimeline writes into the destination timeline's
post registry the union of the two source post registries, where a post
present in both sources receives the MAX of its two scores and a post in
only one source keeps its single score unchanged; keys other than the
destination registry are untouched. -/
theorem c2_merged_timeline (s : Store) (dest src1 src2 : String)
    (h1 : zsetOrAbsent s (mkKeyS ["timeline", src1, "posts"]))
    (h2 : zsetOrAbsent s (mkKeyS ["timeline", src2, "posts"])) :
    ∃ (n : Nat) (s1 : Store),
      createMergedPostsTimeline dest src1 src2 s = (.ok n, s1) ∧
      (∀ m, zlookupAt s1 (mkKeyS ["timeline", dest, "posts"]) m =
        match zlookupAt s (mkKeyS ["timeline", src1, "posts"]) m,
              zlookupAt s (mkKeyS ["timeline", src2, "posts"]) m with
        | some x, some y => some (max x y)
        | some x, none => some x
        | none, some y => some y
        | none, none => none) ∧
      (∀ k, k ≠ mkKeyS ["timeline", dest, "posts"] → s1 k = s k) := by
  have e1 := zsetAtE_of_wt h1
  have e2 := zsetAtE_of_wt h2
  refine ⟨(zunionMax (zAt s (mkKeyS ["timeline", src1, "posts"]))
      (zAt s (mkKeyS ["timeline", src2, "posts"]))).length,
    (if (zunionMax (zAt s (mkKeyS ["timeline", src1, "posts"]))
        (zAt s (mkKeyS ["timeline", src2, "posts"]))).isEmpty
     then Store.del s (mkKeyS ["timeline", dest, "posts"])
     else Store.set s (mkKeyS ["timeline", dest, "posts"])
       (.zset (zunionMax (zAt s (mkKeyS ["timeline", src1, "posts"]))
         (zAt s (mkKeyS ["timeline", src2, "posts"]))))), ?_, ?_, ?_⟩
  · show (match zsetAtE s (mkKeyS ["timeline", src1, "posts"]),
           zsetAtE s (mkKeyS ["timeline", src2, "posts"]) with
      | .ok a, .ok b =>
        ((.ok (zunionMax a b).length,
          if (zunionMax a b).isEmpty then Store.del s (mkKeyS ["timeline", dest, "posts"])
          else Store.set s (mkKeyS ["timeline", dest, "posts"]) (.zset (zunionMax a b))) :
          Except JsError Nat × Store)
      | .error e, _ => (.error e, s)
      | _, .error e => (.error e, s)) = _
    rw [e1, e2]
  · intro m
    have hlz : zlookupAt
        (if (zunionMax (zAt s (mkKeyS ["timeline", src1, "posts"]))
            (zAt s (mkKeyS ["timeline", src2, "posts"]))).isEmpty
         then Store.del s (mkKeyS ["timeline", dest, "posts"])
         else Store.set s (mkKeyS ["timeline", dest, "posts"])
           (.zset (zunionMax (zAt s (mkKeyS ["timeline", src1, "posts"]))
             (zAt s (mkKeyS ["timeline", src2, "posts"])))))
        (mkKeyS ["timeline", dest, "posts"]) m =
        lookupZ (zunionMax (zAt s (mkKeyS ["timeline", src1, "posts"]))
          (zAt s (mkKeyS ["timeline", src2, "posts"]))) m := by
      by_cases he : (zunionMax (zAt s (mkKeyS ["timeline", src1, "posts"]))
          (zAt s (mkKeyS ["timeline", src2, "posts"]))).isEmpty
      · rw [if_pos he, List.isEmpty_iff] at *
        rw [zlookupAt, zAt, Store.del_same, he]
      · rw [if_neg he, zlookupAt, zAt, Store.set_same]
    rw [hlz, lookupZ_zunionMax]
    rfl
  · intro k hk
    by_cases he : (zunionMax (zAt s (mkKeyS ["timeline", src1, "posts"]))
        (zAt s (mkKeyS ["timeline", src2, "posts"]))).isEmpty
    · rw [if_pos he, Store.del_other _ _ hk]
    · rw [if_neg he, Store.set_other _ _ _ hk]

/-- The spec's merge-aggregation store: A = (post1, 10) and
B = (post1, 20), (post2, 5). -/
def mergeStore : Store := fun k =>
  if k = "timeline:A:posts" then some (.zset [("post1", 10)])
  else if k = "timeline:B:posts" then some (.zset [("post1", 20), ("post2", 5)])
  else none

/-- C2 witness: merging A and B into D gives post1 the MAX score 20 and
keeps post2 at 5. -/
theorem c2_merged_timeline_witness :
    ∃ (n : Nat) (s1 : Store),
      createMergedPostsTimeline "D" "A" "B" mergeStore = (.ok n, s1) ∧
      zlookupAt s1 (mkKeyS ["timeline", "D", "posts"]) "post1" = some 20 ∧
      zlookupAt s1 (mkKeyS ["timeline", "D", "posts"]) "post2" = some 5 := by
  obtain ⟨n, s1, hrun, hlook, -⟩ := c2_merged_timeline mergeStore "D" "A" "B"
    (Or.inr ⟨[("post1", 10)], by decide⟩)
    (Or.inr ⟨[("post1", 20), ("post2", 5)], by decide⟩)
  refine ⟨n, s1, hrun, ?_, ?_⟩
  · rw [hlook "post1"]
    decide
  · rw [hlook "post2"]
    decide

/-- Key of a timeline's post-membership registry. -/
def timelinePostsKey (tid : String) : String := mkKeyS ["timeline", tid, "posts"]

/-- The temporary key generated by getTimelinesIntersectionPostIds. -/
def intersectionTempKey (tid1 u : String) : String :=
  mkKeyS ["timeline", tid1, "random", u]

/-- Rank score of a member of the intersection of two registries: the
MAX aggregation of its two stored scores. -/
def interScore (s : Store) (k1 k2 m : String) : Int :=
  max ((zlookupAt s k1 m).getD 0) ((zlookupAt s k2 m).getD 0)

/-- Content, uniqueness and rank order of the read-back MAX intersection
of two duplicate-free sorted sets. -/
theorem interResult_props (a b : ZSet) (hnd : (a.map Prod.fst).Nodup) :
    (∀ m, m ∈ (sortZ (zinterMax a b)).map Prod.fst ↔
      ((lookupZ a m).isSome ∧ (lookupZ b m).isSome)) ∧
    ((sortZ (zinterMax a b)).map Prod.fst).Nodup ∧
    ((sortZ (zinterMax a b)).map Prod.fst).Pairwise (fun m1 m2 =>
      max ((lookupZ a m1).getD 0) ((lookupZ b m1).getD 0) <
        max ((lookupZ a m2).getD 0) ((lookupZ b m2).getD 0) ∨
      (max ((lookupZ a m1).getD 0) ((lookupZ b m1).getD 0) =
        max ((lookupZ a m2).getD 0) ((lookupZ b m2).getD 0) ∧ m1 ≤ m2)) := by
  have hperm : ((sortZ (zinterMax a b)).map Prod.fst).Perm ((zinterMax a b).map Prod.fst) :=
    (sortZ_perm (zinterMax a b)).map Prod.fst
  have hndk : ((zinterMax a b).map Prod.fst).Nodup :=
    List.Nodup.sublist (keys_zinterMax_sublist a b) hnd
  refine ⟨?_, hperm.nodup_iff.mpr hndk, ?_⟩
  · intro m
    rw [hperm.mem_iff, mem_keys_iff_lookup, lookupZ_zinterMax]
    cases ha : lookupZ a m <;> cases hb : lookupZ b m <;> simp
  · have hscore : ∀ p ∈ sortZ (zinterMax a b),
        p.2 = max ((lookupZ a p.1).getD 0) ((lookupZ b p.1).getD 0) := by
      intro p hp
      have hpr : p ∈ zinterMax a b := (sortZ_perm (zinterMax a b)).subset hp
      have hl := lookupZ_eq_of_mem hndk hpr
      rw [lookupZ_zinterMax] at hl
      cases ha : lookupZ a p.1 with
      | none => simp [ha] at hl
      | some x =>
        cases hb : lookupZ b p.1 with
        | none => simp [ha, hb] at hl
        | some y =>
          rw [ha, hb] at hl
          have hl2 : some (max x y) = some p.2 := hl
          simp only [Option.getD_some]
          exact (Option.some.inj hl2).symm
    rw [List.pairwise_map]
    refine (sortZ_sorted (zinterMax a b)).imp_of_mem ?_
    intro p q hp hq hr
    rw [← hscore p hp, ← hscore q hq]
    exact hr

theorem dbRun3 {m1 : DbM Nat} {m2 : DbM (List String)} {m3 : DbM Nat}
    {s s1 s2 s3 : Store} {n1 : Nat} {l : List String} {n3 : Nat}
    (h1 : m1 s = (.ok n1, s1)) (h2 : m2 s1 = (.ok l, s2)) (h3 : m3 s2 = (.ok n3, s3)) :
    dbBind m1 (fun _ => dbBind m2 (fun postIds => dbBind m3 (fun _ => dbPure postIds))) s =
      (.ok l, s3) := by
  have t1 : dbBind m1 (fun _ => dbBind m2 (fun postIds =>
      dbBind m3 (fun _ => dbPure postIds))) s =
      dbBind m2 (fun postIds => dbBind m3 (fun _ => dbPure postIds)) s1 :=
    dbBind_eq_ok h1 _
  have t2 : dbBind m2 (fun postIds => dbBind m3 (fun _ => dbPure postIds)) s1 =
      dbBind m3 (fun _ => dbPure l) s2 := dbBind_eq_ok h2 _
  have t3 : dbBind m3 (fun _ => dbPure l) s2 = dbPure l s3 := dbBind_eq_ok h3 _
  rw [t1, t2, t3]
  rfl

/-- C1: getTimelinesIntersectionPostIds returns exactly the post ids
common to both timelines' post registries, without duplicates, in
ascending rank order (ascending MAX-aggregated score, ties broken by
ascending member order), and on successful completion the internally
generated temporary key no longer exists in the store, every other key
being untouched.  The duplicate-freedom hypothesis on the second
registry is the sorted-set invariant every write of this layer
maintains. -/
theorem c1_timelines_intersection (s : Store) (tid1 tid2 u : String)
    (hA : zsetOrAbsent s (timelinePostsKey tid1))
    (hB : zsetOrAbsent s (timelinePostsKey tid2))
    (hnd2 : ((zAt s (timelinePostsKey tid2)).map Prod.fst).Nodup) :
    ∃ (l : List String) (s1 : Store),
      getTimelinesIntersectionPostIds tid1 tid2 u s = (.ok l, s1) ∧
      (∀ m, m ∈ l ↔ ((zlookupAt s (timelinePostsKey tid1) m).isSome ∧
                     (zlookupAt s (timelinePostsKey tid2) m).isSome)) ∧
      l.Nodup ∧
      l.Pairwise (fun m1 m2 =>
        interScore s (timelinePostsKey tid1) (timelinePostsKey tid2) m1 <
          interScore s (timelinePostsKey tid1) (timelinePostsKey tid2) m2 ∨
        (interScore s (timelinePostsKey tid1) (timelinePostsKey tid2) m1 =
          interScore s (timelinePostsKey tid1) (timelinePostsKey tid2) m2 ∧ m1 ≤ m2)) ∧
      s1 (intersectionTempKey tid1 u) = none ∧
      (∀ k, k ≠ intersectionTempKey tid1 u → s1 k = s k) := by
  obtain ⟨hmem, hnd, hpw⟩ :=
    interResult_props (zAt s (timelinePostsKey tid2)) (zAt s (timelinePostsKey tid1)) hnd2
  have e1 := zsetAtE_of_wt hB
  have e2 := zsetAtE_of_wt hA
  refine ⟨(sortZ (zinterMax (zAt s (timelinePostsKey tid2))
      (zAt s (timelinePostsKey tid1)))).map Prod.fst,
    Store.del s (intersectionTempKey tid1 u), ?_, ?_, hnd, ?_,
    Store.del_same _ _, fun k hk => Store.del_other _ _ hk⟩
  · by_cases hemp : (zinterMax (zAt s (timelinePostsKey tid2))
        (zAt s (timelinePostsKey tid1))).isEmpty
    · have hr0 : zinterMax (zAt s (timelinePostsKey tid2))
          (zAt s (timelinePostsKey tid1)) = [] := List.isEmpty_iff.mp hemp
      have hstep1 : _getPostsTimelinesIntersection (intersectionTempKey tid1 u) tid2 tid1 s =
          (.ok 0, Store.del s (intersectionTempKey tid1 u)) := by
        show (match zsetAtE s (timelinePostsKey tid2), zsetAtE s (timelinePostsKey tid1) with
          | .ok a, .ok b =>
            ((.ok (zinterMax a b).length,
              if (zinterMax a b).isEmpty then Store.del s (intersectionTempKey tid1 u)
              else Store.set s (intersectionTempKey tid1 u) (.zset (zinterMax a b))) :
              Except JsError Nat × Store)
          | .error e, _ => (.error e, s)
          | _, .error e => (.error e, s)) = _
        rw [e1, e2]
        simp [hr0]
      have hz : _getTimelinesIntersectionPosts (intersectionTempKey tid1 u)
          (Store.del s (intersectionTempKey tid1 u)) =
          (.ok ((sortZ (zinterMax (zAt s (timelinePostsKey tid2))
              (zAt s (timelinePostsKey tid1)))).map Prod.fst),
           Store.del s (intersectionTempKey tid1 u)) := by
        rw [hr0]
        simp [_getTimelinesIntersectionPosts, zrangeAsync, Store.del_same, sortZ]
      have hd : _deleteRecord (intersectionTempKey tid1 u)
          (Store.del s (intersectionTempKey tid1 u)) =
          (.ok 0, Store.del s (intersectionTempKey tid1 u)) := by
        have hdd : Store.del (Store.del s (intersectionTempKey tid1 u))
            (intersectionTempKey tid1 u) = Store.del s (intersectionTempKey tid1 u) := by
          funext q
          by_cases hq : q = intersectionTempKey tid1 u <;> simp [Store.del, hq]
        simp [_deleteRecord, delAsync, Store.del_same, hdd]
      exact dbRun3 hstep1 hz hd
    · have hstep1 : _getPostsTimelinesIntersection (intersectionTempKey tid1 u) tid2 tid1 s =
          (.ok (zinterMax (zAt s (timelinePostsKey tid2))
            (zAt s (timelinePostsKey tid1))).length,
           Store.set s (intersectionTempKey tid1 u)
            (.zset (zinterMax (zAt s (timelinePostsKey tid2))
              (zAt s (timelinePostsKey tid1))))) := by
        show (match zsetAtE s (timelinePostsKey tid2), zsetAtE s (timelinePostsKey tid1) with
          | .ok a, .ok b =>
            ((.ok (zinterMax a b).length,
              if (zinterMax a b).isEmpty then Store.del s (intersectionTempKey tid1 u)
              else Store.set s (intersectionTempKey tid1 u) (.zset (zinterMax a b))) :
              Except JsError Nat × Store)
          | .error e, _ => (.error e, s)
          | _, .error e => (.error e, s)) = _
        rw [e1, e2]
        simp [hemp]
      have hz : _getTimelinesIntersectionPosts (intersectionTempKey tid1 u)
          (Store.set s (intersectionTempKey tid1 u)
            (.zset (zinterMax (zAt s (timelinePostsKey tid2))
              (zAt s (timelinePostsKey tid1))))) =
          (.ok ((sortZ (zinterMax (zAt s (timelinePostsKey tid2))
              (zAt s (timelinePostsKey tid1)))).map Prod.fst),
           Store.set s (intersectionTempKey tid1 u)
            (.zset (zinterMax (zAt s (timelinePostsKey tid2))
              (zAt s (timelinePostsKey tid1))))) := by
        simp [_getTimelinesIntersectionPosts, zrangeAsync, Store.set_same, zrangeSpec_all]
      have hd : _deleteRecord (intersectionTempKey tid1 u)
          (Store.set s (intersectionTempKey tid1 u)
            (.zset (zinterMax (zAt s (timelinePostsKey tid2))
              (zAt s (timelinePostsKey tid1))))) =
          (.ok 1, Store.del s (intersectionTempKey tid1 u)) := by
        have hds : Store.del (Store.set s (intersectionTempKey tid1 u)
            (.zset (zinterMax (zAt s (timelinePostsKey tid2))
              (zAt s (timelinePostsKey tid1)))))
            (intersectionTempKey tid1 u) = Store.del s (intersectionTempKey tid1 u) := by
          funext q
          by_cases hq : q = intersectionTempKey tid1 u <;> simp [Store.del, Store.set, hq]
        simp [_deleteRecord, delAsync, Store.set_same, hds]
      exact dbRun3 hstep1 hz hd
  · intro m
    rw [hmem m]
    exact and_comm
  · refine hpw.imp ?_
    intro m1 m2 hr
    have hc : ∀ m : String,
        interScore s (timelinePostsKey tid1) (timelinePostsKey tid2) m =
        max ((lookupZ (zAt s (timelinePostsKey tid2)) m).getD 0)
          ((lookupZ (zAt s (timelinePostsKey tid1)) m).getD 0) := by
      intro m
      rw [interScore, max_comm]
      rfl
    rw [hc m1, hc m2]
    exact hr

/-- The spec's intersection store: A = (post1, post2) and
B = (post2, post3). -/
def interStore : Store := fun k =>
  if k = "timeline:A:posts" then some (.zset [("post1", 1), ("post2", 2)])
  else if k = "timeline:B:posts" then some (.zset [("post2", 3), ("post3", 4)])
  else none

/-- C1 witness: intersecting A and B yields exactly post2 and the
temporary key does not survive the call. -/
theorem c1_timelines_intersection_witness :
    ∃ (l : List String) (s1 : Store),
      getTimelinesIntersectionPostIds "A" "B" "tmp1" interStore = (.ok l, s1) ∧
      "post2" ∈ l ∧ "post1" ∉ l ∧ "post3" ∉ l ∧
      s1 (intersectionTempKey "A" "tmp1") = none := by
  obtain ⟨l, s1, hrun, hmem, -, -, htemp, -⟩ :=
    c1_timelines_intersection interStore "A" "B" "tmp1"
      (Or.inr ⟨[("post1", 1), ("post2", 2)], by decide⟩)
      (Or.inr ⟨[("post2", 3), ("post3", 4)], by decide⟩)
      (by decide)
  refine ⟨l, s1, hrun, (hmem "post2").mpr (by decide), ?_, ?_, htemp⟩
  · intro h
    exact absurd ((hmem "post1").mp h) (by decide)
  · intro h
    exact absurd ((hmem "post3").mp h) (by decide)
